import Mathlib

/-!
Shallow embedding of `src/fibonacci.rs` (a halo2 Fibonacci circuit):
the constraint schema (`Config::configure`), the witness assigner
(`Config::init`, `Config::assign`) and the test circuit
(`MyCircuit::synthesize`), together with theorems checking the
specification's claims against them.
-/

namespace Fib2

/-- Embedding of halo2's `Value<F>`: a field value that may still be the
"unknown" placeholder used during shape-only synthesis. -/
inductive Value (F : Type) where
  | unknown : Value F
  | known : F → Value F
deriving DecidableEq, Repr

/-- Embedding of `Value` addition (`impl Add for Value`): unknownness
propagates through the sum. -/
def Value.add {F : Type} [Add F] : Value F → Value F → Value F
  | .known a, .known b => .known (a + b)
  | _, _ => .unknown

instance {F : Type} [Add F] : Add (Value F) := ⟨Value.add⟩

/-- The three advice columns of `Config` (`elem_1`, `elem_2`, `elem_3`). -/
inductive Col where
  | elem_1 : Col
  | elem_2 : Col
  | elem_3 : Col
deriving DecidableEq, Repr

/-- A (column, row) position in the evaluation table. -/
structure Cell where
  col : Col
  row : Nat
deriving DecidableEq, Repr

/-- Embedding of halo2's `AssignedCell<F, F>`: the committed position
together with the (possibly unknown) value it holds. -/
structure AssignedCell (F : Type) where
  cell : Cell
  val : Value F
deriving DecidableEq, Repr

/-- State accumulated by the region-placement collaborator (the layouter):
committed advice values keyed by cell, the rows on which `q_fib` was
enabled, the equality-copy constraints recorded by `copy_advice`, and the
next free row (`SimpleFloorPlanner` places the one-row regions on
consecutive rows). -/
structure CircuitState (F : Type) where
  assignments : List (Cell × Value F)
  selectors : List Nat
  copies : List (Cell × Cell)
  nextRow : Nat
deriving DecidableEq, Repr

/-- The empty table, before any region is assigned. -/
def CircuitState.empty {F : Type} : CircuitState F := ⟨[], [], [], 0⟩

/-- Value committed at a given column and row, if any (most recent commit
first, matching the prepend order of `assignAdvice`). -/
def CircuitState.valAt {F : Type} (s : CircuitState F) (c : Col) (r : Nat) :
    Option (Value F) :=
  (s.assignments.lookup ⟨c, r⟩)

/-- Embedding of `Selector::enable`: record the row as selector-active. -/
def enableQ {F : Type} (s : CircuitState F) (row : Nat) : CircuitState F :=
  { s with selectors := row :: s.selectors }

/-- Embedding of `Region::assign_advice`: commit a value at (col, row) and
return the handle to the committed cell. -/
def assignAdvice {F : Type} (s : CircuitState F) (c : Col) (row : Nat)
    (v : Value F) : CircuitState F × AssignedCell F :=
  ({ s with assignments := (⟨c, row⟩, v) :: s.assignments }, ⟨⟨c, row⟩, v⟩)

/-- Embedding of `AssignedCell::copy_advice`: commit the source cell's value
at (col, row) and record an equality-copy constraint between the source
cell and the new cell. -/
def copyAdvice {F : Type} (s : CircuitState F) (src : AssignedCell F)
    (c : Col) (row : Nat) : CircuitState F × AssignedCell F :=
  let p := assignAdvice s c row src.val
  ({ p.1 with copies := (src.cell, ⟨c, row⟩) :: p.1.copies }, p.2)

/-- Embedding of the halo2 `Expression<F>` fragment built inside
`create_gate`: selector and advice queries combined with `+`, `-`, `*`. -/
inductive Expr (F : Type) where
  | selector : Nat → Expr F
  | advice : Nat → Int → Expr F
  | add : Expr F → Expr F → Expr F
  | sub : Expr F → Expr F → Expr F
  | mul : Expr F → Expr F → Expr F
deriving DecidableEq, Repr

/-- Evaluation of a gate expression given the per-row selector values and
advice values (indexed by advice column and rotation). -/
def Expr.eval {F : Type} [Ring F] (selVal : Nat → F) (advVal : Nat → Int → F) :
    Expr F → F
  | .selector i => selVal i
  | .advice c rot => advVal c rot
  | .add a b => a.eval selVal advVal + b.eval selVal advVal
  | .sub a b => a.eval selVal advVal - b.eval selVal advVal
  | .mul a b => a.eval selVal advVal * b.eval selVal advVal

/-- Embedding of the state of halo2's `ConstraintSystem<F>` that
`Config::configure` touches: how many advice columns and selectors have
been allocated, which advice columns are equality-enabled, and the
registered gate polynomials (with the gate's name). -/
structure ConstraintSystem (F : Type) where
  numAdvice : Nat
  equalityEnabled : List Nat
  numSelectors : Nat
  gates : List (String × Expr F)
deriving DecidableEq, Repr

/-- A freshly initialized constraint system, before configuration. -/
def ConstraintSystem.fresh {F : Type} : ConstraintSystem F := ⟨0, [], 0, []⟩

/-- Embedding of `ConstraintSystem::advice_column`: allocate the next
advice column index. -/
def ConstraintSystem.adviceColumn {F : Type} (cs : ConstraintSystem F) :
    ConstraintSystem F × Nat :=
  ({ cs with numAdvice := cs.numAdvice + 1 }, cs.numAdvice)

/-- Embedding of `ConstraintSystem::enable_equality` on an advice column. -/
def ConstraintSystem.enableEquality {F : Type} (cs : ConstraintSystem F)
    (c : Nat) : ConstraintSystem F :=
  { cs with equalityEnabled := cs.equalityEnabled ++ [c] }

/-- Embedding of `ConstraintSystem::selector`: allocate the next selector
index. -/
def ConstraintSystem.newSelector {F : Type} (cs : ConstraintSystem F) :
    ConstraintSystem F × Nat :=
  ({ cs with numSelectors := cs.numSelectors + 1 }, cs.numSelectors)

/-- Embedding of `ConstraintSystem::create_gate`: register a named gate
polynomial. -/
def ConstraintSystem.createGate {F : Type} (cs : ConstraintSystem F)
    (nm : String) (e : Expr F) : ConstraintSystem F :=
  { cs with gates := cs.gates ++ [(nm, e)] }

/-- The polynomial built by the closure passed to `create_gate`:
`q_fib * (elem_1 + elem_2 - elem_3)`, with all advice queried at
`Rotation::cur()` (rotation 0). -/
def fibGateExpr {F : Type} (q e1 e2 e3 : Nat) : Expr F :=
  .mul (.selector q) (.sub (.add (.advice e1 0) (.advice e2 0)) (.advice e3 0))

/-- The `Config` struct: the three advice column indices and the selector
index. -/
structure Config where
  elem_1 : Nat
  elem_2 : Nat
  elem_3 : Nat
  q_fib : Nat
deriving DecidableEq, Repr

/-- Embedding of `Config::configure`: allocate three equality-enabled
advice columns and a selector, and register the "fibonacci" gate. -/
def Config.configure {F : Type} (cs : ConstraintSystem F) :
    ConstraintSystem F × Config :=
  let p1 := cs.adviceColumn
  let cs := p1.1.enableEquality p1.2
  let p2 := cs.adviceColumn
  let cs := p2.1.enableEquality p2.2
  let p3 := cs.adviceColumn
  let cs := p3.1.enableEquality p3.2
  let pq := cs.newSelector
  let cs := pq.1.createGate "fibonacci" (fibGateExpr pq.2 p1.2 p2.2 p3.2)
  (cs, ⟨p1.2, p2.2, p3.2, pq.2⟩)

/-- Embedding of `Config::init`: on a fresh one-row region, enable `q_fib`,
commit `elem_1` and `elem_2` as given, compute
`elem_3 = elem_1 + elem_2` (over `Value`, so unknownness propagates) and
commit it; return the handles for `elem_2` and `elem_3`. -/
def Config.init {F : Type} [Add F] (a b : Value F) (s : CircuitState F) :
    CircuitState F × AssignedCell F × AssignedCell F :=
  let row := s.nextRow
  let s := enableQ s row
  let p1 := assignAdvice s .elem_1 row a
  let p2 := assignAdvice p1.1 .elem_2 row b
  let v3 := a + p2.2.val
  let p3 := assignAdvice p2.1 .elem_3 row v3
  ({ p3.1 with nextRow := row + 1 }, p2.2, p3.2)

/-- Embedding of `Config::assign` (the steady-state step): on a fresh
one-row region, enable `q_fib`, equality-copy the previous `elem_2` cell
into this row's `elem_1` slot and the previous `elem_3` cell into this
row's `elem_2` slot, compute `elem_3` as the sum of the two copied values
and commit it; return the handles for the new `elem_2` and `elem_3`. -/
def Config.assign {F : Type} [Add F] (c2 c3 : AssignedCell F)
    (s : CircuitState F) : CircuitState F × AssignedCell F × AssignedCell F :=
  let row := s.nextRow
  let s := enableQ s row
  let p1 := copyAdvice s c2 .elem_1 row
  let p2 := copyAdvice p1.1 c3 .elem_2 row
  let v3 := p1.2.val + p2.2.val
  let p3 := assignAdvice p2.1 .elem_3 row v3
  ({ p3.1 with nextRow := row + 1 }, p2.2, p3.2)

/-- Embedding of `MyCircuit::synthesize`: one `init` region followed by one
steady-state `assign` region, threading the handles, starting from the
empty table. -/
def synthesize {F : Type} [Add F] (a b : Value F) : CircuitState F :=
  let r1 := Config.init a b CircuitState.empty
  let r2 := Config.assign r1.2.1 r1.2.2 r1.1
  r2.1

/-- Abstract model of halo2's `plonk::Error`, the error type propagated by
`?` from the collaborator operations (`enable`, `assign_advice`,
`copy_advice`). -/
inductive Err where
  | synthesisFailure : Err
  | boundsFailure : Err
  | notEnoughRows : Err
deriving DecidableEq, Repr

/-- Outcome of running one region closure under a fallible collaborator:
the indices of the primitive operations attempted, in order, and either
the error propagated by the first failing operation or the final state and
returned handles. -/
structure StepRun (F : Type) where
  attempted : List Nat
  result : Except Err (CircuitState F × AssignedCell F × AssignedCell F)
deriving Repr

/-- Embedding of `Config::init` run against a fallible collaborator: the
oracle says which of the four primitive operations (0 = selector enable,
1/2/3 = the three advice commits) fails; `?` propagates the first failure
immediately and later operations are not attempted. -/
def Config.initE {F : Type} [Add F] (oracle : Nat → Option Err)
    (a b : Value F) (s : CircuitState F) : StepRun F :=
  let row := s.nextRow
  match oracle 0 with
  | some e => ⟨[0], .error e⟩
  | none =>
    let s := enableQ s row
    match oracle 1 with
    | some e => ⟨[0, 1], .error e⟩
    | none =>
      let p1 := assignAdvice s .elem_1 row a
      match oracle 2 with
      | some e => ⟨[0, 1, 2], .error e⟩
      | none =>
        let p2 := assignAdvice p1.1 .elem_2 row b
        match oracle 3 with
        | some e => ⟨[0, 1, 2, 3], .error e⟩
        | none =>
          let v3 := a + p2.2.val
          let p3 := assignAdvice p2.1 .elem_3 row v3
          ⟨[0, 1, 2, 3], .ok ({ p3.1 with nextRow := row + 1 }, p2.2, p3.2)⟩

/-- Embedding of `Config::assign` run against a fallible collaborator: the
oracle says which of the four primitive operations (0 = selector enable,
1/2 = the two equality-copies, 3 = the `elem_3` commit) fails; `?`
propagates the first failure immediately and later operations are not
attempted. -/
def Config.assignE {F : Type} [Add F] (oracle : Nat → Option Err)
    (c2 c3 : AssignedCell F) (s : CircuitState F) : StepRun F :=
  let row := s.nextRow
  match oracle 0 with
  | some e => ⟨[0], .error e⟩
  | none =>
    let s := enableQ s row
    match oracle 1 with
    | some e => ⟨[0, 1], .error e⟩
    | none =>
      let p1 := copyAdvice s c2 .elem_1 row
      match oracle 2 with
      | some e => ⟨[0, 1, 2], .error e⟩
      | none =>
        let p2 := copyAdvice p1.1 c3 .elem_2 row
        match oracle 3 with
        | some e => ⟨[0, 1, 2, 3], .error e⟩
        | none =>
          let v3 := p1.2.val + p2.2.val
          let p3 := assignAdvice p2.1 .elem_3 row v3
          ⟨[0, 1, 2, 3], .ok ({ p3.1 with nextRow := row + 1 }, p2.2, p3.2)⟩

/-- Region structure of a table, forgetting the committed values: which
cells are assigned, which rows are selector-active, which equality-copies
are recorded, and the next free row. -/
def CircuitState.shape {F : Type} (s : CircuitState F) :
    List Cell × List Nat × List (Cell × Cell) × Nat :=
  (s.assignments.map Prod.fst, s.selectors, s.copies, s.nextRow)

/-- The Fibonacci-style recurrence seeded by `a`, `b`:
`s 0 = a`, `s 1 = b`, `s (i+2) = s i + s (i+1)` in the field. -/
def fibSeq {F : Type} [Add F] (a b : F) : Nat → F
  | 0 => a
  | 1 => b
  | n + 2 => fibSeq a b n + fibSeq a b (n + 1)

/-- One `init` call on known seeds followed by `n` chained steady-state
`assign` calls, starting from the empty table. -/
def chainN {F : Type} [Add F] (a b : F) :
    Nat → CircuitState F × AssignedCell F × AssignedCell F
  | 0 => Config.init (.known a) (.known b) CircuitState.empty
  | n + 1 =>
    let r := chainN a b n
    Config.assign r.2.1 r.2.2 r.1

/-- Advice valuation for one row holding `x`, `y`, `z` in the three
columns allocated by `configure` (indices 0, 1, 2). -/
def advAt {F : Type} (x y z : F) : Nat → Int → F :=
  fun c _ => if c = 0 then x else if c = 1 then y else z

/-- The registered gate holds on a row of the table: the three slots carry
known values and the gate polynomial evaluates to zero there with the
selector active (value 1). -/
def gateHoldsAt {F : Type} [Ring F] (s : CircuitState F) (row : Nat) : Prop :=
  ∃ x y z : F,
    s.valAt .elem_1 row = some (.known x) ∧
    s.valAt .elem_2 row = some (.known y) ∧
    s.valAt .elem_3 row = some (.known z) ∧
    Expr.eval (fun _ => 1) (advAt x y z) (fibGateExpr 0 0 1 2) = 0

instance : Fact (Nat.Prime 5) := ⟨by norm_num⟩

instance : Fact (Nat.Prime 11) := ⟨by norm_num⟩

/-- Unfolding lemma for `Value` addition on two known values. -/
theorem value_known_add {F : Type} [Add F] (a b : F) :
    (Value.known a + Value.known b : Value F) = .known (a + b) := rfl

/-- Unknownness propagates through `Value` addition from the left. -/
theorem value_unknown_add {F : Type} [Add F] (b : Value F) :
    (Value.unknown + b : Value F) = .unknown := by cases b <;> rfl

/-- Unknownness propagates through `Value` addition from the right. -/
theorem value_add_unknown {F : Type} [Add F] (a : Value F) :
    (a + Value.unknown : Value F) = .unknown := by cases a <;> rfl

/-- Unfolding lemma for the recurrence step of `fibSeq`. -/
theorem fibSeq_add_two {F : Type} [Add F] (a b : F) (n : Nat) :
    fibSeq a b (n + 2) = fibSeq a b n + fibSeq a b (n + 1) := rfl

/-- C1: with the selector active (value 1), the registered gate polynomial
`q_fib * (elem_1 + elem_2 - elem_3)` — the single gate `configure`
registers — evaluates to zero on values `x, y, z` iff `z = x + y` in the
field, and evaluates to a nonzero value whenever `z ≠ x + y`. -/
theorem gate_soundness {F : Type} [Field F] (x y z : F) :
    ((Config.configure (F := F) ConstraintSystem.fresh).1.gates =
      [("fibonacci", fibGateExpr 0 0 1 2)]) ∧
    (Expr.eval (fun _ => (1 : F)) (advAt x y z) (fibGateExpr 0 0 1 2) = 0 ↔
      z = x + y) ∧
    (z ≠ x + y →
      Expr.eval (fun _ => (1 : F)) (advAt x y z) (fibGateExpr 0 0 1 2) ≠ 0) := by
  have hiff : Expr.eval (fun _ => (1 : F)) (advAt x y z) (fibGateExpr 0 0 1 2) = 0 ↔
      z = x + y := by
    rw [show Expr.eval (fun _ => (1 : F)) (advAt x y z) (fibGateExpr 0 0 1 2) =
      1 * (x + y - z) from rfl, one_mul, sub_eq_zero]
    exact eq_comm
  exact ⟨rfl, hiff, fun hne h => hne (hiff.mp h)⟩

/-- C1 witness: in `ZMod 5`, `3 ≠ 1 + 1` and the active gate evaluates to
a nonzero value on `(1, 1, 3)`. -/
theorem gate_soundness_witness :
    (3 : ZMod 5) ≠ 1 + 1 ∧
    Expr.eval (fun _ => (1 : ZMod 5)) (advAt 1 1 3) (fibGateExpr 0 0 1 2) ≠ 0 :=
  ⟨by decide, (gate_soundness (F := ZMod 5) 1 1 3).2.2 (by decide)⟩

/-- C6: with the selector inactive (value 0), the gate polynomial
evaluates to zero for all values `x, y, z`: the row is unconstrained. -/
theorem gate_vacuity {F : Type} [Field F] (x y z : F) :
    Expr.eval (fun _ => (0 : F)) (advAt x y z) (fibGateExpr 0 0 1 2) = 0 :=
  show (0 : F) * (x + y - z) = 0 from zero_mul _

/-- C3: `init` enables the selector on its region's row, commits `elem_1`
and `elem_2` as given and `elem_3 = elem_1 + elem_2`, and returns exactly
the handles for the `elem_2` and `elem_3` cells (not `elem_1`); on seeds
`(1, 1)` the committed `elem_3` is `2`. -/
theorem init_correctness {F : Type} [Field F] (a b : Value F)
    (s : CircuitState F) :
    (s.nextRow ∈ (Config.init a b s).1.selectors) ∧
    ((Config.init a b s).1.valAt .elem_1 s.nextRow = some a) ∧
    ((Config.init a b s).1.valAt .elem_2 s.nextRow = some b) ∧
    ((Config.init a b s).1.valAt .elem_3 s.nextRow = some (a + b)) ∧
    ((Config.init a b s).2.1 = ⟨⟨.elem_2, s.nextRow⟩, b⟩) ∧
    ((Config.init a b s).2.2 = ⟨⟨.elem_3, s.nextRow⟩, a + b⟩) ∧
    ((Config.init (F := F) (.known 1) (.known 1) s).1.valAt .elem_3 s.nextRow =
      some (.known 2)) ∧
    ((Config.init (F := F) (.known 1) (.known 1) s).2.2.val = .known 2) := by
  refine ⟨?_, ?_, ?_, ?_, rfl, rfl, ?_, ?_⟩ <;>
    simp [Config.init, CircuitState.valAt, assignAdvice, enableQ, List.lookup,
      beq_eq_decide, Cell.mk.injEq, Value.add, one_add_one_eq_two]
  · exact show (Value.known ((1 : F) + 1)) = .known 2 by
      rw [one_add_one_eq_two]
  · exact show (Value.add (F := F) (.known 1) (.known 1)) = .known 2 by
      rw [Value.add, one_add_one_eq_two]

/-- C2: the steady-state `assign` fills this region's `elem_1` slot by an
equality-copy from the caller's previous `elem_2` cell and the `elem_2`
slot by an equality-copy from the previous `elem_3` cell: the copy
constraints linking the source cells to the new cells are recorded, and
the committed values are exactly the source cells' values. -/
theorem assign_copy_constraints {F : Type} [Field F] (c2 c3 : AssignedCell F)
    (s : CircuitState F) :
    ((c2.cell, (⟨.elem_1, s.nextRow⟩ : Cell)) ∈ (Config.assign c2 c3 s).1.copies) ∧
    ((c3.cell, (⟨.elem_2, s.nextRow⟩ : Cell)) ∈ (Config.assign c2 c3 s).1.copies) ∧
    ((Config.assign c2 c3 s).1.valAt .elem_1 s.nextRow = some c2.val) ∧
    ((Config.assign c2 c3 s).1.valAt .elem_2 s.nextRow = some c3.val) := by
  refine ⟨?_, ?_, ?_, ?_⟩ <;>
    simp [Config.assign, copyAdvice, assignAdvice, enableQ, CircuitState.valAt,
      List.lookup, beq_eq_decide, Cell.mk.injEq]

/-- C4: from handles holding `(elem_2 = 1, elem_3 = 2)`, one steady-state
`assign` commits the row `(1, 2, 3)` and returns handles holding `(2, 3)`;
a second chained call commits the row `(2, 3, 5)`. -/
theorem assign_chaining {F : Type} [Field F] (c2 c3 : AssignedCell F)
    (s : CircuitState F) (h2 : c2.val = .known 1) (h3 : c3.val = .known 2) :
    ((Config.assign c2 c3 s).1.valAt .elem_1 s.nextRow = some (.known 1)) ∧
    ((Config.assign c2 c3 s).1.valAt .elem_2 s.nextRow = some (.known 2)) ∧
    ((Config.assign c2 c3 s).1.valAt .elem_3 s.nextRow = some (.known 3)) ∧
    ((Config.assign c2 c3 s).2.1.val = .known 2) ∧
    ((Config.assign c2 c3 s).2.2.val = .known 3) ∧
    ((Config.assign (Config.assign c2 c3 s).2.1 (Config.assign c2 c3 s).2.2
        (Config.assign c2 c3 s).1).1.valAt .elem_1
        (Config.assign c2 c3 s).1.nextRow = some (.known 2)) ∧
    ((Config.assign (Config.assign c2 c3 s).2.1 (Config.assign c2 c3 s).2.2
        (Config.assign c2 c3 s).1).1.valAt .elem_2
        (Config.assign c2 c3 s).1.nextRow = some (.known 3)) ∧
    ((Config.assign (Config.assign c2 c3 s).2.1 (Config.assign c2 c3 s).2.2
        (Config.assign c2 c3 s).1).1.valAt .elem_3
        (Config.assign c2 c3 s).1.nextRow = some (.known 5)) := by
  have h23 : (1 : F) + 2 = 3 := by norm_num
  have h35 : (2 : F) + 3 = 5 := by norm_num
  refine ⟨?_, ?_, ?_, ?_, ?_, ?_, ?_, ?_⟩ <;>
    simp [Config.assign, copyAdvice, assignAdvice, enableQ, CircuitState.valAt,
      List.lookup, beq_eq_decide, Cell.mk.injEq, h2, h3, value_known_add,
      Value.known.injEq, h23, h35]

/-- C4 witness: concrete handles over `ZMod 11` holding `1` and `2`; the
second chained step commits `elem_3 = 5`. -/
theorem assign_chaining_witness :
    ((⟨⟨.elem_2, 0⟩, .known 1⟩ : AssignedCell (ZMod 11)).val = .known 1) ∧
    ((⟨⟨.elem_3, 0⟩, .known 2⟩ : AssignedCell (ZMod 11)).val = .known 2) ∧
    ((Config.assign
        (Config.assign (F := ZMod 11) ⟨⟨.elem_2, 0⟩, .known 1⟩
          ⟨⟨.elem_3, 0⟩, .known 2⟩ .empty).2.1
        (Config.assign (F := ZMod 11) ⟨⟨.elem_2, 0⟩, .known 1⟩
          ⟨⟨.elem_3, 0⟩, .known 2⟩ .empty).2.2
        (Config.assign (F := ZMod 11) ⟨⟨.elem_2, 0⟩, .known 1⟩
          ⟨⟨.elem_3, 0⟩, .known 2⟩ .empty).1).1.valAt .elem_3
        (Config.assign (F := ZMod 11) ⟨⟨.elem_2, 0⟩, .known 1⟩
          ⟨⟨.elem_3, 0⟩, .known 2⟩ .empty).1.nextRow = some (.known 5)) :=
  ⟨rfl, rfl,
    (assign_chaining (F := ZMod 11) ⟨⟨.elem_2, 0⟩, .known 1⟩
      ⟨⟨.elem_3, 0⟩, .known 2⟩ .empty rfl rfl).2.2.2.2.2.2.2⟩

/-- C5: seeded with `(1, 1)`, the synthesized circuit satisfies the gate
on every selector-active row, the handles exposed by `init` hold `(1, 2)`
and those of the steady-state step hold `(2, 3)`, and the two regions hold
`(1, 1, 2)` and `(1, 2, 3)` in the `elem_1, elem_2, elem_3` slots. -/
theorem synthesize_correctness {F : Type} [Field F] :
    (∀ row ∈ (synthesize (F := F) (.known 1) (.known 1)).selectors,
      gateHoldsAt (synthesize (F := F) (.known 1) (.known 1)) row) ∧
    ((Config.init (F := F) (.known 1) (.known 1) .empty).2.1.val = .known 1) ∧
    ((Config.init (F := F) (.known 1) (.known 1) .empty).2.2.val = .known 2) ∧
    ((Config.assign (Config.init (F := F) (.known 1) (.known 1) .empty).2.1
        (Config.init (F := F) (.known 1) (.known 1) .empty).2.2
        (Config.init (F := F) (.known 1) (.known 1) .empty).1).2.1.val =
      .known 2) ∧
    ((Config.assign (Config.init (F := F) (.known 1) (.known 1) .empty).2.1
        (Config.init (F := F) (.known 1) (.known 1) .empty).2.2
        (Config.init (F := F) (.known 1) (.known 1) .empty).1).2.2.val =
      .known 3) ∧
    ((synthesize (F := F) (.known 1) (.known 1)).valAt .elem_1 0 =
      some (.known 1)) ∧
    ((synthesize (F := F) (.known 1) (.known 1)).valAt .elem_2 0 =
      some (.known 1)) ∧
    ((synthesize (F := F) (.known 1) (.known 1)).valAt .elem_3 0 =
      some (.known 2)) ∧
    ((synthesize (F := F) (.known 1) (.known 1)).valAt .elem_1 1 =
      some (.known 1)) ∧
    ((synthesize (F := F) (.known 1) (.known 1)).valAt .elem_2 1 =
      some (.known 2)) ∧
    ((synthesize (F := F) (.known 1) (.known 1)).valAt .elem_3 1 =
      some (.known 3)) := by
  have h2 : (1 : F) + 1 = 2 := one_add_one_eq_two
  have h23 : (1 : F) + 2 = 3 := by norm_num
  refine ⟨?_, ?_, ?_, ?_, ?_, ?_, ?_, ?_, ?_, ?_, ?_⟩
  · intro row hrow
    have hsel : (synthesize (F := F) (.known 1) (.known 1)).selectors = [1, 0] :=
      rfl
    rw [hsel] at hrow
    rcases List.mem_cons.mp hrow with h | h
    · subst h
      refine ⟨1, 2, 3, ?_, ?_, ?_, ?_⟩ <;>
        simp [synthesize, Config.init, Config.assign, copyAdvice, assignAdvice,
          enableQ, CircuitState.valAt, CircuitState.empty, List.lookup,
          beq_eq_decide, Cell.mk.injEq, value_known_add, Value.known.injEq, h2,
          h23, Expr.eval, fibGateExpr, advAt]
    · have h0 : row = 0 := by simpa using h
      subst h0
      refine ⟨1, 1, 2, ?_, ?_, ?_, ?_⟩ <;>
        simp [synthesize, Config.init, Config.assign, copyAdvice, assignAdvice,
          enableQ, CircuitState.valAt, CircuitState.empty, List.lookup,
          beq_eq_decide, Cell.mk.injEq, value_known_add, Value.known.injEq, h2,
          h23, Expr.eval, fibGateExpr, advAt]
  all_goals
    simp [synthesize, Config.init, Config.assign, copyAdvice, assignAdvice,
      enableQ, CircuitState.valAt, CircuitState.empty, List.lookup,
      beq_eq_decide, Cell.mk.injEq, value_known_add, Value.known.injEq, h2, h23]

/-- C5 witness: over `ZMod 11`, row 1 is selector-active in the
synthesized table and the gate holds there. -/
theorem synthesize_correctness_witness :
    1 ∈ (synthesize (F := ZMod 11) (.known 1) (.known 1)).selectors ∧
    gateHoldsAt (synthesize (F := ZMod 11) (.known 1) (.known 1)) 1 :=
  ⟨by decide, (synthesize_correctness (F := ZMod 11)).1 1 (by decide)⟩

/-- C9: `configure` on a fresh constraint system allocates exactly advice
columns 0, 1, 2 (all equality-enabled) and selector 0 and registers the
single "fibonacci" gate, and two runs on equal (independently initialized)
constraint systems produce equal schemas. -/
theorem configure_deterministic {F : Type} [Field F] :
    (Config.configure (F := F) ConstraintSystem.fresh =
      (⟨3, [0, 1, 2], 1, [("fibonacci", fibGateExpr 0 0 1 2)]⟩, ⟨0, 1, 2, 0⟩)) ∧
    (∀ cs1 cs2 : ConstraintSystem F, cs1 = cs2 →
      Config.configure cs1 = Config.configure cs2) :=
  ⟨rfl, fun _ _ h => by rw [h]⟩

/-- C9 witness: two fresh constraint systems over `ZMod 5` yield equal
configurations. -/
theorem configure_deterministic_witness :
    (ConstraintSystem.fresh (F := ZMod 5)) = ConstraintSystem.fresh ∧
    Config.configure (F := ZMod 5) ConstraintSystem.fresh =
      Config.configure ConstraintSystem.fresh :=
  ⟨rfl, (configure_deterministic (F := ZMod 5)).2 _ _ rfl⟩

/-- C7: unknownness propagates into the computed `elem_3` of both `init`
and `assign`, the commits succeed unconditionally whatever the values are
(only collaborator failures can abort), and a shape-only pass with
all-unknown inputs produces the same region structure as a
witness-bearing pass. -/
theorem unknown_values {F : Type} [Field F] (a b : Value F)
    (c2 c3 : AssignedCell F) (s : CircuitState F) :
    (a = .unknown ∨ b = .unknown → (Config.init a b s).2.2.val = .unknown) ∧
    (c2.val = .unknown ∨ c3.val = .unknown →
      (Config.assign c2 c3 s).2.2.val = .unknown) ∧
    ((Config.initE (fun _ => none) a b s).result = .ok (Config.init a b s)) ∧
    ((Config.assignE (fun _ => none) c2 c3 s).result =
      .ok (Config.assign c2 c3 s)) ∧
    ((Config.assign (Config.init a b s).2.1 (Config.init a b s).2.2
        (Config.init a b s).1).1.shape =
      (Config.assign (Config.init .unknown .unknown s).2.1
        (Config.init .unknown .unknown s).2.2
        (Config.init .unknown .unknown s).1).1.shape) := by
  refine ⟨?_, ?_, rfl, rfl, rfl⟩
  · rintro (rfl | rfl)
    · exact value_unknown_add b
    · exact value_add_unknown a
  · rintro (h | h)
    · show c2.val + c3.val = .unknown
      rw [h, value_unknown_add]
    · show c2.val + c3.val = .unknown
      rw [h, value_add_unknown]

/-- C7 witness: over `ZMod 5`, an unknown first seed makes the committed
`elem_3` of `init` unknown. -/
theorem unknown_values_witness :
    ((Value.unknown : Value (ZMod 5)) = .unknown ∨
      (Value.known 1 : Value (ZMod 5)) = .unknown) ∧
    (Config.init (F := ZMod 5) .unknown (.known 1) .empty).2.2.val = .unknown :=
  ⟨Or.inl rfl,
    (unknown_values .unknown (.known 1) ⟨⟨.elem_2, 0⟩, .unknown⟩
      ⟨⟨.elem_3, 0⟩, .known 2⟩ .empty).1 (Or.inl rfl)⟩

/-- Helper: a run of `initE` errors exactly when one of its four
collaborator operations fails. -/
theorem initE_error_iff {F : Type} [Field F] (oracle : Nat → Option Err)
    (a b : Value F) (s : CircuitState F) :
    (∃ e, (Config.initE oracle a b s).result = .error e) ↔
      ∃ i, i < 4 ∧ (oracle i).isSome := by
  constructor
  · rintro ⟨e, he⟩
    by_contra hno
    push_neg at hno
    have h0 : oracle 0 = none :=
      Option.not_isSome_iff_eq_none.mp (by simpa using hno 0 (by norm_num))
    have h1 : oracle 1 = none :=
      Option.not_isSome_iff_eq_none.mp (by simpa using hno 1 (by norm_num))
    have h2 : oracle 2 = none :=
      Option.not_isSome_iff_eq_none.mp (by simpa using hno 2 (by norm_num))
    have h3 : oracle 3 = none :=
      Option.not_isSome_iff_eq_none.mp (by simpa using hno 3 (by norm_num))
    simp [Config.initE, h0, h1, h2, h3] at he
  · rintro ⟨i, hi, hs⟩
    rcases ho0 : oracle 0 with _ | e0
    · rcases ho1 : oracle 1 with _ | e1
      · rcases ho2 : oracle 2 with _ | e2
        · rcases ho3 : oracle 3 with _ | e3
          · exfalso
            interval_cases i <;> simp_all
          · exact ⟨e3, by simp [Config.initE, ho0, ho1, ho2, ho3]⟩
        · exact ⟨e2, by simp [Config.initE, ho0, ho1, ho2]⟩
      · exact ⟨e1, by simp [Config.initE, ho0, ho1]⟩
    · exact ⟨e0, by simp [Config.initE, ho0]⟩

/-- Helper: a run of `assignE` errors exactly when one of its four
collaborator operations fails. -/
theorem assignE_error_iff {F : Type} [Field F] (oracle : Nat → Option Err)
    (c2 c3 : AssignedCell F) (s : CircuitState F) :
    (∃ e, (Config.assignE oracle c2 c3 s).result = .error e) ↔
      ∃ i, i < 4 ∧ (oracle i).isSome := by
  constructor
  · rintro ⟨e, he⟩
    by_contra hno
    push_neg at hno
    have h0 : oracle 0 = none :=
      Option.not_isSome_iff_eq_none.mp (by simpa using hno 0 (by norm_num))
    have h1 : oracle 1 = none :=
      Option.not_isSome_iff_eq_none.mp (by simpa using hno 1 (by norm_num))
    have h2 : oracle 2 = none :=
      Option.not_isSome_iff_eq_none.mp (by simpa using hno 2 (by norm_num))
    have h3 : oracle 3 = none :=
      Option.not_isSome_iff_eq_none.mp (by simpa using hno 3 (by norm_num))
    simp [Config.assignE, h0, h1, h2, h3] at he
  · rintro ⟨i, hi, hs⟩
    rcases ho0 : oracle 0 with _ | e0
    · rcases ho1 : oracle 1 with _ | e1
      · rcases ho2 : oracle 2 with _ | e2
        · rcases ho3 : oracle 3 with _ | e3
          · exfalso
            interval_cases i <;> simp_all
          · exact ⟨e3, by simp [Config.assignE, ho0, ho1, ho2, ho3]⟩
        · exact ⟨e2, by simp [Config.assignE, ho0, ho1, ho2]⟩
      · exact ⟨e1, by simp [Config.assignE, ho0, ho1]⟩
    · exact ⟨e0, by simp [Config.assignE, ho0]⟩

/-- Helper: the operations attempted by `initE` are never repeated. -/
theorem initE_attempted_nodup {F : Type} [Field F] (oracle : Nat → Option Err)
    (a b : Value F) (s : CircuitState F) :
    (Config.initE oracle a b s).attempted.Nodup := by
  rcases ho0 : oracle 0 with _ | e0 <;>
    rcases ho1 : oracle 1 with _ | e1 <;>
    rcases ho2 : oracle 2 with _ | e2 <;>
    rcases ho3 : oracle 3 with _ | e3 <;>
    simp [Config.initE, ho0, ho1, ho2, ho3]

/-- Helper: the operations attempted by `assignE` are never repeated. -/
theorem assignE_attempted_nodup {F : Type} [Field F]
    (oracle : Nat → Option Err) (c2 c3 : AssignedCell F) (s : CircuitState F) :
    (Config.assignE oracle c2 c3 s).attempted.Nodup := by
  rcases ho0 : oracle 0 with _ | e0 <;>
    rcases ho1 : oracle 1 with _ | e1 <;>
    rcases ho2 : oracle 2 with _ | e2 <;>
    rcases ho3 : oracle 3 with _ | e3 <;>
    simp [Config.assignE, ho0, ho1, ho2, ho3]

/-- C8: `init` and `assign` error exactly when one of the four
collaborator operations does; when all succeed they return the committed
region and handles with all four operations attempted once; the first
failure is propagated immediately (the attempted list stops at it, so no
later commit is tried and there is no partial success), and no operation
is ever retried. -/
theorem error_propagation {F : Type} [Field F] (oracle : Nat → Option Err)
    (a b : Value F) (c2 c3 : AssignedCell F) (s : CircuitState F) :
    ((∀ i, i < 4 → oracle i = none) →
      Config.initE oracle a b s = ⟨[0, 1, 2, 3], .ok (Config.init a b s)⟩ ∧
      Config.assignE oracle c2 c3 s =
        ⟨[0, 1, 2, 3], .ok (Config.assign c2 c3 s)⟩) ∧
    (∀ i e, i < 4 → oracle i = some e → (∀ j, j < i → oracle j = none) →
      Config.initE oracle a b s = ⟨List.range (i + 1), .error e⟩ ∧
      Config.assignE oracle c2 c3 s = ⟨List.range (i + 1), .error e⟩) ∧
    ((∃ e, (Config.initE oracle a b s).result = .error e) ↔
      ∃ i, i < 4 ∧ (oracle i).isSome) ∧
    ((∃ e, (Config.assignE oracle c2 c3 s).result = .error e) ↔
      ∃ i, i < 4 ∧ (oracle i).isSome) ∧
    (Config.initE oracle a b s).attempted.Nodup ∧
    (Config.assignE oracle c2 c3 s).attempted.Nodup := by
  refine ⟨?_, ?_, initE_error_iff oracle a b s, assignE_error_iff oracle c2 c3 s,
    initE_attempted_nodup oracle a b s, assignE_attempted_nodup oracle c2 c3 s⟩
  · intro h
    have h0 := h 0 (by norm_num)
    have h1 := h 1 (by norm_num)
    have h2 := h 2 (by norm_num)
    have h3 := h 3 (by norm_num)
    constructor <;>
      simp [Config.initE, Config.assignE, Config.init, Config.assign, h0, h1,
        h2, h3]
  · intro i e hi he hprev
    interval_cases i
    · constructor <;>
        simp [Config.initE, Config.assignE, he, List.range_succ, List.range_zero]
    · have h0 := hprev 0 (by norm_num)
      constructor <;>
        simp [Config.initE, Config.assignE, h0, he, List.range_succ,
          List.range_zero]
    · have h0 := hprev 0 (by norm_num)
      have h1 := hprev 1 (by norm_num)
      constructor <;>
        simp [Config.initE, Config.assignE, h0, h1, he, List.range_succ,
          List.range_zero]
    · have h0 := hprev 0 (by norm_num)
      have h1 := hprev 1 (by norm_num)
      have h2 := hprev 2 (by norm_num)
      constructor <;>
        simp [Config.initE, Config.assignE, h0, h1, h2, he, List.range_succ,
          List.range_zero]

/-- C8 witness: over `ZMod 11`, an oracle failing at operation 2 makes
`initE` attempt exactly operations 0, 1, 2 and propagate the error. -/
theorem error_propagation_witness :
    ((fun i => if i = 2 then some Err.boundsFailure else none) 2 =
      some Err.boundsFailure) ∧
    Config.initE (F := ZMod 11)
        (fun i => if i = 2 then some Err.boundsFailure else none)
        (.known 1) (.known 1) .empty =
      ⟨List.range 3, .error Err.boundsFailure⟩ :=
  ⟨rfl,
    ((error_propagation (F := ZMod 11)
        (fun i => if i = 2 then some Err.boundsFailure else none)
        (.known 1) (.known 1) ⟨⟨.elem_2, 0⟩, .known 1⟩ ⟨⟨.elem_3, 0⟩, .known 2⟩
        .empty).2.1 2 Err.boundsFailure (by norm_num) rfl
      (fun j hj => by interval_cases j <;> rfl)).1⟩

/-- Helper: full characterization of the handles and next row after `init`
on known seeds followed by `n` chained `assign` calls. -/
theorem chainN_spec {F : Type} [Field F] (a b : F) (n : Nat) :
    (chainN a b n).1.nextRow = n + 1 ∧
    (chainN a b n).2.1 = ⟨⟨.elem_2, n⟩, .known (fibSeq a b (n + 1))⟩ ∧
    (chainN a b n).2.2 = ⟨⟨.elem_3, n⟩, .known (fibSeq a b (n + 2))⟩ := by
  induction n with
  | zero => exact ⟨rfl, rfl, rfl⟩
  | succ n ih =>
    obtain ⟨hrow, h2, h3⟩ := ih
    refine ⟨?_, ?_, ?_⟩ <;>
      simp [chainN, Config.assign, copyAdvice, assignAdvice, enableQ, hrow, h2,
        h3, value_known_add, fibSeq_add_two]

/-- C10: after `init (a, b)` and `n` chained `assign` calls, the returned
handles hold the recurrence values `(s (n+1), s (n+2))` of
`s 0 = a, s 1 = b, s (i+2) = s i + s (i+1)`, and (for `n ≥ 1`) the row
committed by the `n`-th `assign` call holds `(s n, s (n+1), s (n+2))` in
the `elem_1, elem_2, elem_3` slots. -/
theorem chain_invariant {F : Type} [Field F] (a b : F) (n : Nat) :
    ((chainN a b n).2.1.val = .known (fibSeq a b (n + 1))) ∧
    ((chainN a b n).2.2.val = .known (fibSeq a b (n + 2))) ∧
    (1 ≤ n →
      ((chainN a b n).1.valAt .elem_1 n = some (.known (fibSeq a b n))) ∧
      ((chainN a b n).1.valAt .elem_2 n = some (.known (fibSeq a b (n + 1)))) ∧
      ((chainN a b n).1.valAt .elem_3 n = some (.known (fibSeq a b (n + 2))))) := by
  obtain ⟨hrow, h2, h3⟩ := chainN_spec a b n
  refine ⟨by rw [h2], by rw [h3], ?_⟩
  intro hn
  match n, hn with
  | m + 1, _ =>
    obtain ⟨hrow', h2', h3'⟩ := chainN_spec a b m
    refine ⟨?_, ?_, ?_⟩ <;>
      simp [chainN, Config.assign, copyAdvice, assignAdvice, enableQ,
        CircuitState.valAt, List.lookup, beq_eq_decide, Cell.mk.injEq, hrow',
        h2', h3', value_known_add, fibSeq_add_two]

/-- C10 witness: over `ZMod 5` with seeds `(1, 1)`, after one `assign`
call row 1 holds the recurrence value `s 3` in `elem_3`. -/
theorem chain_invariant_witness :
    (1 : Nat) ≤ 1 ∧
    (chainN (F := ZMod 5) 1 1 1).1.valAt .elem_3 1 =
      some (.known (fibSeq 1 1 3)) :=
  ⟨le_refl 1, ((chain_invariant (F := ZMod 5) 1 1 1).2.2 (le_refl 1)).2.2⟩

end Fib2
